import Mathlib

/-!
Shallow embedding of the Art Portfolio API server (src/server.js).

The JSON document store (data.json) is modelled as a `List Artwork`; the
uploads directory is a `List String` of stored filenames.  File-system
nondeterminism (fresh uuid, timestamps, whether `fs.unlink` throws) is
passed in as explicit parameters.  Request bodies arrive through multer
as text fields, so body fields are `Option String`; the `status` field may
also arrive as a JSON number on a JSON-encoded body, so it is modelled as
an `Option StatusVal` where `StatusVal` is a JS number-or-string value.
-/

/-- A JavaScript value that can sit in the `status` position: a number or a
string.  Records read back from data.json could carry either form. -/
inductive StatusVal where
  | num (n : Int)
  | str (s : String)
deriving Repr, DecidableEq

/-- One artwork record as persisted in data.json. -/
structure Artwork where
  id : String
  title : String
  description : String
  category : String
  origin : String
  artist : String
  createdDate : String
  status : StatusVal
  image : String
  createdAt : String
  updatedAt : String
deriving Repr, DecidableEq

/-- The text fields of an incoming request body (`req.body`).  `none` models
a field that is absent (`undefined`). -/
structure Body where
  title : Option String
  description : Option String
  category : Option String
  origin : Option String
  artist : Option String
  createdDate : Option String
  status : Option StatusVal
deriving Repr, DecidableEq

/-- JS String.prototype.trim: strip leading and trailing whitespace.
Written over the character list so that it evaluates by structural
recursion. -/
def jsTrim (s : String) : String :=
  ⟨((s.data.dropWhile Char.isWhitespace).reverse.dropWhile Char.isWhitespace).reverse⟩

/-- Decimal-digit accumulator for parseIntStr. -/
def parseDigitsAux : List Char → Nat → Option Nat
  | [], acc => some acc
  | c :: cs, acc =>
    if c.isDigit then parseDigitsAux cs (acc * 10 + (c.toNat - 48)) else none

/-- Parsing a string as a (possibly negated) decimal integer, `none` playing
the role of NaN.  This stands in for JS ToNumber / parseInt on the strings
the server actually feeds them — the validated status values "0" and "1" —
where the JS functions agree with plain decimal parsing. -/
def parseIntStr (s : String) : Option Int :=
  match s.data with
  | [] => none
  | '-' :: cs =>
    (match cs with
     | [] => none
     | _ => (parseDigitsAux cs 0).map (fun n => -(n : Int)))
  | cs => (parseDigitsAux cs 0).map (fun n => (n : Int))

/-- JS falsy-or-blank test used by validateArtworkData on each text field:
`!field || field.trim().length === 0`.  An absent field and an empty or
all-whitespace string both fail. -/
def missingText : Option String → Bool
  | none => true
  | some s => jsTrim s = ""

/-- The status values accepted by validateArtworkData:
`[0, 1, "0", "1"].includes(status)` (strict-equality membership). -/
def validStatusVals : List StatusVal :=
  [.num 0, .num 1, .str "0", .str "1"]

/-- validateArtworkData (src/server.js lines 34-74): collects the error
messages, in source order.  Date parsing (`new Date(s)` not being NaN) is
not reproducible in Lean, so the date-validity predicate is a parameter;
`!createdDate` also rejects the empty string before the predicate runs. -/
def validateArtworkData (isValidDate : String → Bool) (b : Body) : List String :=
  (if missingText b.title then ["Title harus diisi"] else []) ++
  (if missingText b.description then ["Description harus diisi"] else []) ++
  (if missingText b.category then ["Category harus diisi"] else []) ++
  (if missingText b.origin then ["Origin harus diisi"] else []) ++
  (if missingText b.artist then ["Artist harus diisi"] else []) ++
  (if (match b.createdDate with
       | none => true
       | some d => d = "" || !(isValidDate d)) then ["Created date harus valid"] else []) ++
  (if (match b.status with
       | none => true
       | some v => !(validStatusVals.contains v)) then ["Status harus 0 atau 1"] else [])

/-- The payload assembled by the POST and PUT handlers and handed to
ArtworkService.create / ArtworkService.update: every record field except
id, createdAt, updatedAt. -/
structure ArtworkData where
  title : String
  description : String
  category : String
  origin : String
  artist : String
  createdDate : String
  status : StatusVal
  image : String
deriving Repr, DecidableEq

namespace ArtworkService

/-- findById (lines 109-112): `data.find(item => item.id === id)`. -/
def findById (id : String) (data : List Artwork) : Option Artwork :=
  data.find? (fun item => item.id == id)

/-- create (lines 114-125): builds the new record with a server-generated
id and two `new Date().toISOString()` stamps, pushes it at the end of the
array and persists.  Returns the new record and the persisted array. -/
def create (newId createdAt updatedAt : String) (ad : ArtworkData)
    (data : List Artwork) : Artwork × List Artwork :=
  let newArtwork : Artwork :=
    { id := newId
      title := ad.title, description := ad.description, category := ad.category
      origin := ad.origin, artist := ad.artist, createdDate := ad.createdDate
      status := ad.status, image := ad.image
      createdAt := createdAt, updatedAt := updatedAt }
  (newArtwork, data ++ [newArtwork])

/-- The spread merge `{...data[index], ...artworkData, updatedAt}` performed
by update: artworkData carries every field except id and createdAt, so only
those two survive from the old record. -/
def mergeRecord (old : Artwork) (ad : ArtworkData) (updatedAt : String) : Artwork :=
  { id := old.id
    title := ad.title, description := ad.description, category := ad.category
    origin := ad.origin, artist := ad.artist, createdDate := ad.createdDate
    status := ad.status, image := ad.image
    createdAt := old.createdAt, updatedAt := updatedAt }

/-- update (lines 127-144): findIndex on id; when absent returns null and
does not write; otherwise replaces the record at that (first-match) index
with the merged record and persists.  Expressed as a first-match traversal. -/
def update (id : String) (ad : ArtworkData) (updatedAt : String) :
    List Artwork → Option Artwork × List Artwork
  | [] => (none, [])
  | item :: rest =>
    if item.id == id then
      let updated := mergeRecord item ad updatedAt
      (some updated, updated :: rest)
    else
      match update id ad updatedAt rest with
      | (r, rest2) => (r, item :: rest2)

/-- delete (lines 146-158): findIndex on id; when absent returns null and
does not write; otherwise splices out the record at that (first-match)
index, persists, and returns the removed record. -/
def delete (id : String) : List Artwork → Option Artwork × List Artwork
  | [] => (none, [])
  | item :: rest =>
    if item.id == id then (some item, rest)
    else
      match delete id rest with
      | (r, rest2) => (r, item :: rest2)

end ArtworkService

/-- path.basename: the substring after the last slash (the whole string
when no slash occurs). -/
def jsBasename (p : String) : String :=
  ⟨(p.data.reverse.takeWhile (fun c => c ≠ '/')).reverse⟩

/-- fs.unlink on the uploads directory: throws (ENOENT) when the file is
absent, and may also fail for other I/O reasons, modelled by the `ioFail`
oracle; on success the filename is removed from the directory. -/
def fsUnlink (ioFail : Bool) (filename : String) (assets : List String) :
    Except Unit (List String) :=
  if assets.contains filename then
    if ioFail then .error () else .ok (assets.erase filename)
  else .error ()

/-- deleteOldImage (lines 198-208): skips falsy urls, unlinks the basename
of the url inside the uploads dir, and swallows any failure (try/catch with
a console.warn), always returning the resulting directory contents. -/
def deleteOldImage (ioFail : Bool) (imageUrl : String) (assets : List String) :
    List String :=
  if imageUrl = "" then assets
  else
    match fsUnlink ioFail (jsBasename imageUrl) assets with
    | .ok a => a
    | .error _ => assets

/-- Query parameters of GET /artworks.  `page` and `limit` hold the result
of `parseInt(req.query...)`: `none` is NaN (absent or unparsable).  `status`
is the raw query-string value when present. -/
structure Query where
  page : Option Int
  limit : Option Int
  status : Option String
deriving Repr, DecidableEq

/-- JS `parseInt(x) || d`: NaN and 0 are falsy and fall back to the default. -/
def jsOrDefault (v : Option Int) (d : Int) : Int :=
  match v with
  | none => d
  | some n => if n = 0 then d else n

/-- One clamped index of Array.prototype.slice: negative indices count from
the end (clamped at 0), others are clamped at the length. -/
def jsSliceBound (len : Nat) (i : Int) : Nat :=
  if i < 0 then ((len : Int) + i).toNat else min i.toNat len

/-- Array.prototype.slice(start, stop). -/
def jsSlice (l : List α) (start stop : Int) : List α :=
  let s := jsSliceBound l.length start
  let e := jsSliceBound l.length stop
  (l.take e).drop s

/-- Math.ceil(a / b) for integer a and nonzero integer b: the negated floor
division of the negation.  (The GET handler only ever calls it with the
pagination limit, which the `|| 10` default keeps nonzero.) -/
def jsCeil (a b : Int) : Int :=
  -(Int.fdiv (-a) b)

/-- The guard on the status filter, line 369:
`[0, 1, "0", "1"].includes(statusFilter)`.  Query-string values are strings,
so only the two string members of that array can ever match. -/
def statusGuard (s : String) : Bool :=
  s == "0" || s == "1"

/-- JS loose equality `artwork.status == statusFilter` between a stored
status value and the query string: a stored number compares against the
string converted to a number, a stored string compares exactly.  (The guard
restricts the filter string to "0"/"1", where `String.toInt?` agrees with
JS ToNumber.) -/
def statusLooseEq (v : StatusVal) (s : String) : Bool :=
  match v with
  | .num n => parseIntStr s == some n
  | .str t => t == s

/-- The pagination metadata object of the GET /artworks response. -/
structure Pagination where
  page : Int
  limit : Int
  total : Nat
  pages : Int
deriving Repr, DecidableEq

/-- The GET /artworks response body. -/
structure ListResponse where
  data : List Artwork
  pagination : Pagination
deriving Repr, DecidableEq

/-- The status-filter stage of the GET /artworks handler, lines 368-373:
when a status query value is present and passes the guard, keep the records
loosely equal to it; otherwise the collection passes through unfiltered. -/
def statusFiltered (qs : Option String) (records : List Artwork) : List Artwork :=
  match qs with
  | some s =>
    if statusGuard s then records.filter (fun a => statusLooseEq a.status s)
    else records
  | none => records

/-- GET /artworks handler (lines 358-388): parse page and limit with their
falsy defaults, filter by status when the guard admits the query value,
then slice and report pagination metadata over the filtered total. -/
def getArtworks (q : Query) (records : List Artwork) : ListResponse :=
  let page := jsOrDefault q.page 1
  let limit := jsOrDefault q.limit 10
  let skip := (page - 1) * limit
  let allArtworks := statusFiltered q.status records
  let total := allArtworks.length
  let artworks := jsSlice allArtworks skip (skip + limit)
  { data := artworks
    pagination := { page := page, limit := limit, total := total
                    pages := jsCeil (total : Int) limit } }

/-- Server-side state touched by the write routes: the persisted record
array (data.json) and the contents of the uploads directory. -/
structure St where
  records : List Artwork
  assets : List String
deriving Repr, DecidableEq

/-- A multipart write request: the filename multer assigned to the uploaded
file when one is present, the body fields, and the url parts used to build
the public image url. -/
structure UploadReq where
  file : Option String
  body : Body
  protocol : String
  host : String
deriving Repr, DecidableEq

/-- The multer upload.single middleware: when a file is attached it is
written into the uploads directory before any later middleware runs. -/
def multerStore (file : Option String) (assets : List String) : List String :=
  match file with
  | none => assets
  | some f => assets ++ [f]

/-- parseInt as the handlers apply it to the already-validated status field:
a number is returned unchanged, a string is parsed as a decimal integer.
Validation has restricted strings to "0"/"1", where `String.toInt?`
succeeds, so the NaN fallback is unreachable. -/
def jsParseInt : StatusVal → Int
  | .num n => n
  | .str s => (parseIntStr s).getD 0

/-- The public url of a stored upload:
`protocol://host/uploads/filename`. -/
def uploadUrl (protocol host f : String) : String :=
  protocol ++ "://" ++ host ++ "/uploads/" ++ f

/-- The artworkData object both write handlers build from the validated
body: trimmed text fields, the raw createdDate, parseInt of status, and the
computed image url.  Validation guarantees every field is present, so the
defaults behind `Option.getD` are unreachable. -/
def mkArtworkData (b : Body) (imageUrl : String) : ArtworkData :=
  { title := jsTrim (b.title.getD "")
    description := jsTrim (b.description.getD "")
    category := jsTrim (b.category.getD "")
    origin := jsTrim (b.origin.getD "")
    artist := jsTrim (b.artist.getD "")
    createdDate := b.createdDate.getD ""
    status := .num (jsParseInt (b.status.getD (.num 0)))
    image := imageUrl }

/-- Outcome of POST /artworks. -/
inductive PostResp where
  | validationFailed (details : List String)
  | imageRequired
  | created (artwork : Artwork)
deriving Repr, DecidableEq

/-- HTTP status code of a POST /artworks outcome. -/
def PostResp.code : PostResp → Nat
  | .validationFailed _ => 400
  | .imageRequired => 400
  | .created _ => 201

/-- POST /artworks (lines 406-445) with its middleware chain in source
order: upload.single stores the file first, validateArtworkData then
rejects with 400 (leaving the already-stored file in place), the handler
then requires a file, builds artworkData and appends through
ArtworkService.create. -/
def postArtworks (isValidDate : String → Bool) (newId createdAt updatedAt : String)
    (req : UploadReq) (st : St) : PostResp × St :=
  let st1 : St := { st with assets := multerStore req.file st.assets }
  let errors := validateArtworkData isValidDate req.body
  if errors.length > 0 then (.validationFailed errors, st1)
  else
    match req.file with
    | none => (.imageRequired, st1)
    | some f =>
      let ad := mkArtworkData req.body (uploadUrl req.protocol req.host f)
      let res := ArtworkService.create newId createdAt updatedAt ad st1.records
      (.created res.1, { records := res.2, assets := st1.assets })

/-- Outcome of PUT /artworks/:id.  The handler passes the (non-null, since
findById succeeded) result of ArtworkService.update to res.json verbatim,
hence the Option in the ok payload. -/
inductive PutResp where
  | validationFailed (details : List String)
  | notFound
  | ok (artwork : Option Artwork)
deriving Repr, DecidableEq

/-- HTTP status code of a PUT /artworks/:id outcome. -/
def PutResp.code : PutResp → Nat
  | .validationFailed _ => 400
  | .notFound => 404
  | .ok _ => 200

/-- PUT /artworks/:id (lines 447-501): upload.single then validation, then
findById; on not-found a freshly uploaded file is cleaned up best-effort and
404 is returned; otherwise the old asset is deleted (best-effort) exactly
when a new file was uploaded, the image url is recomputed, and the merged
record is persisted through ArtworkService.update. -/
def putArtworkRoute (isValidDate : String → Bool) (updatedAt : String) (ioFail : Bool)
    (id : String) (req : UploadReq) (st : St) : PutResp × St :=
  let st1 : St := { st with assets := multerStore req.file st.assets }
  let errors := validateArtworkData isValidDate req.body
  if errors.length > 0 then (.validationFailed errors, st1)
  else
    match ArtworkService.findById id st1.records with
    | none =>
      let assets2 :=
        match req.file with
        | some f => deleteOldImage ioFail ("/uploads/" ++ f) st1.assets
        | none => st1.assets
      (.notFound, { st1 with assets := assets2 })
    | some existingArtwork =>
      let imageUrl :=
        match req.file with
        | some f => uploadUrl req.protocol req.host f
        | none => existingArtwork.image
      let assets2 :=
        match req.file with
        | some _ => deleteOldImage ioFail existingArtwork.image st1.assets
        | none => st1.assets
      let ad := mkArtworkData req.body imageUrl
      let res := ArtworkService.update id ad updatedAt st1.records
      (.ok res.1, { records := res.2, assets := assets2 })

/-- Outcome of DELETE /artworks/:id. -/
inductive DeleteResp where
  | notFound
  | ok (deletedArtwork : Artwork)
deriving Repr, DecidableEq

/-- HTTP status code of a DELETE /artworks/:id outcome. -/
def DeleteResp.code : DeleteResp → Nat
  | .notFound => 404
  | .ok _ => 200

/-- DELETE /artworks/:id (lines 503-522): ArtworkService.delete, 404 when
the id is unknown, otherwise best-effort removal of the asset named by the
deleted record and a success body carrying the deleted record. -/
def deleteArtworkRoute (ioFail : Bool) (id : String) (st : St) : DeleteResp × St :=
  match ArtworkService.delete id st.records with
  | (none, _) => (.notFound, st)
  | (some deleted, records2) =>
    let assets2 := deleteOldImage ioFail deleted.image st.assets
    (.ok deleted, { records := records2, assets := assets2 })

/-! ## Helper lemmas -/

lemma find_append_fresh (l : List Artwork) (a : Artwork)
    (h : a.id ∉ l.map Artwork.id) :
    ArtworkService.findById a.id (l ++ [a]) = some a := by
  induction l with
  | nil => simp [ArtworkService.findById]
  | cons x xs ih =>
    simp only [List.map_cons, List.mem_cons, not_or] at h
    rw [List.cons_append, ArtworkService.findById, List.find?_cons_of_neg]
    · exact ih h.2
    · simp only [beq_iff_eq]
      exact fun e => h.1 e.symm

/-! ## C1 -/

/-- C1: for every valid create payload (non-blank text fields, valid
createdDate, status 0 or 1) and every prior collection state in which the
freshly generated id does not already occur, findById on the id of the
record returned by create finds exactly that record, and its payload fields
equal the input payload. -/
theorem create_findById_roundtrip (isValidDate : String → Bool)
    (newId createdAt updatedAt : String) (ad : ArtworkData) (l : List Artwork)
    (hTitle : jsTrim ad.title ≠ "") (hDesc : jsTrim ad.description ≠ "")
    (hCat : jsTrim ad.category ≠ "") (hOrig : jsTrim ad.origin ≠ "")
    (hArt : jsTrim ad.artist ≠ "") (hDate : isValidDate ad.createdDate = true)
    (hStatus : ad.status = .num 0 ∨ ad.status = .num 1)
    (hFresh : newId ∉ l.map Artwork.id) :
    ArtworkService.findById (ArtworkService.create newId createdAt updatedAt ad l).1.id
        (ArtworkService.create newId createdAt updatedAt ad l).2 =
      some (ArtworkService.create newId createdAt updatedAt ad l).1 ∧
    (ArtworkService.create newId createdAt updatedAt ad l).1.title = ad.title ∧
    (ArtworkService.create newId createdAt updatedAt ad l).1.description = ad.description ∧
    (ArtworkService.create newId createdAt updatedAt ad l).1.category = ad.category ∧
    (ArtworkService.create newId createdAt updatedAt ad l).1.origin = ad.origin ∧
    (ArtworkService.create newId createdAt updatedAt ad l).1.artist = ad.artist ∧
    (ArtworkService.create newId createdAt updatedAt ad l).1.createdDate = ad.createdDate ∧
    (ArtworkService.create newId createdAt updatedAt ad l).1.status = ad.status ∧
    (ArtworkService.create newId createdAt updatedAt ad l).1.image = ad.image := by
  refine ⟨?_, rfl, rfl, rfl, rfl, rfl, rfl, rfl, rfl⟩
  exact find_append_fresh l _ hFresh

/-- A concrete valid payload used to instantiate the theorems. -/
def adW : ArtworkData :=
  { title := "t", description := "d", category := "c", origin := "o"
    artist := "a", createdDate := "2024-01-01", status := .num 1
    image := "http://h/uploads/f.png" }

/-- C1 witness: the round trip evaluated on a concrete payload over the
empty collection. -/
theorem create_findById_roundtrip_witness :
    ArtworkService.findById (ArtworkService.create "id0" "c0" "u0" adW []).1.id
        (ArtworkService.create "id0" "c0" "u0" adW []).2 =
      some (ArtworkService.create "id0" "c0" "u0" adW []).1 ∧
    (ArtworkService.create "id0" "c0" "u0" adW []).1.title = adW.title ∧
    (ArtworkService.create "id0" "c0" "u0" adW []).1.description = adW.description ∧
    (ArtworkService.create "id0" "c0" "u0" adW []).1.category = adW.category ∧
    (ArtworkService.create "id0" "c0" "u0" adW []).1.origin = adW.origin ∧
    (ArtworkService.create "id0" "c0" "u0" adW []).1.artist = adW.artist ∧
    (ArtworkService.create "id0" "c0" "u0" adW []).1.createdDate = adW.createdDate ∧
    (ArtworkService.create "id0" "c0" "u0" adW []).1.status = adW.status ∧
    (ArtworkService.create "id0" "c0" "u0" adW []).1.image = adW.image :=
  create_findById_roundtrip (fun _ => true) "id0" "c0" "u0" adW []
    (by decide) (by decide) (by decide) (by decide) (by decide) rfl
    (Or.inr rfl) (by simp)

/-! ## C9 -/

/-- C9: a status query value outside the guard list (anything other than
"0" or "1") makes GET /artworks behave exactly as if no status filter had
been supplied: same data, same pagination. -/
theorem invalid_status_filter_ignored (l : List Artwork) (q : Query) (s : String)
    (hs : q.status = some s) (h0 : s ≠ "0") (h1 : s ≠ "1") :
    getArtworks q l = getArtworks { q with status := none } l := by
  simp [getArtworks, statusFiltered, hs, statusGuard, h0, h1]

/-- C9 witness: status=2 over the empty store equals the unfiltered query. -/
theorem invalid_status_filter_ignored_witness :
    getArtworks { page := none, limit := none, status := some "2" } [] =
      getArtworks { page := none, limit := none, status := none } [] :=
  invalid_status_filter_ignored [] _ "2" rfl (by decide) (by decide)

/-! ## C2 -/

/-- The POST request used to exhibit the orphaned asset: a file is
attached, but the title field is missing. -/
def reqC2 : UploadReq :=
  { file := some "artwork-1.png"
    body := { title := none, description := some "d", category := some "c"
              origin := some "o", artist := some "a"
              createdDate := some "2024-01-01", status := some (.str "1") }
    protocol := "http", host := "h" }

/-- C2 counterexample: a POST with a file and an invalid body is rejected
with 400 and appends no record, but the uploaded file is already stored and
remains in the asset directory, contradicting the claim that no uploaded
asset file remains and that validation precedes upload side effects. -/
theorem post_orphan_asset_cex :
    (postArtworks (fun _ => true) "id1" "c1" "u1" reqC2 ⟨[], []⟩).1.code = 400 ∧
    (postArtworks (fun _ => true) "id1" "c1" "u1" reqC2 ⟨[], []⟩).2.records = [] ∧
    (postArtworks (fun _ => true) "id1" "c1" "u1" reqC2 ⟨[], []⟩).2.assets =
      ["artwork-1.png"] := by
  refine ⟨rfl, rfl, rfl⟩

/-- C2 (amended): a POST whose body fails validation is answered 400 with
the itemized reasons and no record is appended, but the upload middleware
has already stored any attached file before validation runs and nothing
removes it, so the stored file remains in the asset directory. -/
theorem post_invalid_rejected_file_retained (isValidDate : String → Bool)
    (newId createdAt updatedAt : String) (req : UploadReq) (st : St)
    (h : validateArtworkData isValidDate req.body ≠ []) :
    postArtworks isValidDate newId createdAt updatedAt req st =
      (.validationFailed (validateArtworkData isValidDate req.body),
       { records := st.records, assets := multerStore req.file st.assets }) ∧
    ∀ f, req.file = some f →
      f ∈ (postArtworks isValidDate newId createdAt updatedAt req st).2.assets := by
  have hlen : (validateArtworkData isValidDate req.body).length > 0 :=
    List.length_pos.mpr h
  constructor
  · simp only [postArtworks]
    rw [if_pos hlen]
  · intro f hf
    simp only [postArtworks]
    rw [if_pos hlen]
    simp [multerStore, hf]

/-- C2 (amended) witness: the amended statement evaluated on the concrete
rejected request. -/
theorem post_invalid_rejected_file_retained_witness :
    postArtworks (fun _ => true) "id1" "c1" "u1" reqC2 ⟨[], []⟩ =
      (.validationFailed (validateArtworkData (fun _ => true) reqC2.body),
       { records := ([] : List Artwork), assets := multerStore reqC2.file [] }) ∧
    ∀ f, reqC2.file = some f →
      f ∈ (postArtworks (fun _ => true) "id1" "c1" "u1" reqC2 ⟨[], []⟩).2.assets :=
  post_invalid_rejected_file_retained (fun _ => true) "id1" "c1" "u1" reqC2 ⟨[], []⟩
    (by decide)

/-! ## Pagination lemmas -/

lemma take_drop_clamp (l : List α) (a m : Nat) :
    (l.take (min (a + m) l.length)).drop (min a l.length) = (l.drop a).take m := by
  rcases le_total (a + m) l.length with h | h
  · rw [min_eq_left h, min_eq_left (by omega), List.drop_take]
    congr 1
    omega
  · rw [min_eq_right h, List.take_length]
    rcases le_total a l.length with h2 | h2
    · rw [min_eq_left h2,
        List.take_of_length_le (l := l.drop a) (by simp [List.length_drop]; omega)]
    · rw [min_eq_right h2, List.drop_length, List.drop_eq_nil_of_le h2]
      simp

lemma jsSlice_nonneg (l : List α) (s lim : Int) (hs : 0 ≤ s) (hl : 0 ≤ lim) :
    jsSlice l s (s + lim) = (l.drop s.toNat).take lim.toNat := by
  simp only [jsSlice, jsSliceBound]
  rw [if_neg (by omega), if_neg (by omega)]
  have h1 : (s + lim).toNat = s.toNat + lim.toNat := by omega
  rw [h1]
  exact take_drop_clamp l s.toNat lim.toNat

lemma mem_of_mem_jsSlice {a : α} {l : List α} {s e : Int} (h : a ∈ jsSlice l s e) :
    a ∈ l := by
  simp only [jsSlice] at h
  exact List.mem_of_mem_take (List.mem_of_mem_drop h)

lemma jsCeil_eq_ceil (t l : Int) (hl : 0 < l) : jsCeil t l = ⌈(t : ℚ) / (l : ℚ)⌉ := by
  have hndiv : jsCeil t l = -((-t) / l) := by
    unfold jsCeil
    rw [Int.fdiv_eq_ediv _ hl.le]
  have hcast : ((l.toNat : ℕ) : ℚ) = (l : ℚ) := by
    exact_mod_cast congrArg (fun z : ℤ => (z : ℚ)) (Int.toNat_of_nonneg hl.le)
  have hfloor : ⌊((-t : ℤ) : ℚ) / ((l.toNat : ℕ) : ℚ)⌋ = (-t) / ((l.toNat : ℕ) : ℤ) :=
    Rat.floor_intCast_div_natCast (-t) l.toNat
  have h2 : ⌈(t : ℚ) / (l : ℚ)⌉ = -⌊((-t : ℤ) : ℚ) / ((l.toNat : ℕ) : ℚ)⌋ := by
    rw [hcast]
    push_cast
    rw [neg_div, Int.floor_neg, neg_neg]
  rw [hndiv, h2, hfloor]
  rw [Int.toNat_of_nonneg hl.le]

/-! ## C3 -/

/-- C3: with explicit page p ≥ 1 and limit ≥ 1 the GET /artworks data is
the contiguous slice of the status-filtered collection starting at offset
(p-1)*limit of length at most limit, total is the filtered length, pages is
the ceiling of total/limit, and the echoed page and limit match; absent
page and limit parameters default to 1 and 10; on a 12-record store
page=2 with limit=5 yields exactly records 6 through 10 and pages = 3. -/
theorem getArtworks_pagination :
    (∀ (l : List Artwork) (q : Query) (p lim : Int),
      q.page = some p → q.limit = some lim → 1 ≤ p → 1 ≤ lim →
      (getArtworks q l).data =
        ((statusFiltered q.status l).drop ((p - 1) * lim).toNat).take lim.toNat ∧
      (getArtworks q l).data.length ≤ lim.toNat ∧
      (getArtworks q l).pagination.total = (statusFiltered q.status l).length ∧
      (getArtworks q l).pagination.page = p ∧
      (getArtworks q l).pagination.limit = lim ∧
      (getArtworks q l).pagination.pages =
        ⌈(((statusFiltered q.status l).length : ℤ) : ℚ) / ((lim : ℤ) : ℚ)⌉) ∧
    (∀ (l : List Artwork) (q : Query), q.page = none →
      (getArtworks q l).pagination.page = 1) ∧
    (∀ (l : List Artwork) (q : Query), q.limit = none →
      (getArtworks q l).pagination.limit = 10) ∧
    (∀ l : List Artwork, l.length = 12 →
      (getArtworks { page := some 2, limit := some 5, status := none } l).data =
        (l.drop 5).take 5 ∧
      (getArtworks { page := some 2, limit := some 5, status := none } l).pagination.pages
        = 3) := by
  have main : ∀ (l : List Artwork) (q : Query) (p lim : Int),
      q.page = some p → q.limit = some lim → 1 ≤ p → 1 ≤ lim →
      (getArtworks q l).data =
        ((statusFiltered q.status l).drop ((p - 1) * lim).toNat).take lim.toNat ∧
      (getArtworks q l).data.length ≤ lim.toNat ∧
      (getArtworks q l).pagination.total = (statusFiltered q.status l).length ∧
      (getArtworks q l).pagination.page = p ∧
      (getArtworks q l).pagination.limit = lim ∧
      (getArtworks q l).pagination.pages =
        ⌈(((statusFiltered q.status l).length : ℤ) : ℚ) / ((lim : ℤ) : ℚ)⌉ := by
    intro l q p lim hp hl hp1 hl1
    have hpv : jsOrDefault q.page 1 = p := by
      rw [hp]; simp [jsOrDefault]; omega
    have hlv : jsOrDefault q.limit 10 = lim := by
      rw [hl]; simp [jsOrDefault]; omega
    have hskip : 0 ≤ (p - 1) * lim := mul_nonneg (by omega) (by omega)
    have hdata : (getArtworks q l).data =
        ((statusFiltered q.status l).drop ((p - 1) * lim).toNat).take lim.toNat := by
      simp only [getArtworks, hpv, hlv]
      exact jsSlice_nonneg _ _ _ hskip (by omega)
    refine ⟨hdata, ?_, rfl, ?_, ?_, ?_⟩
    · rw [hdata]; exact List.length_take_le _ _
    · simp [getArtworks, hpv]
    · simp [getArtworks, hlv]
    · simp only [getArtworks, hlv]
      exact jsCeil_eq_ceil _ _ (by omega)
  refine ⟨main, ?_, ?_, ?_⟩
  · intro l q hq; simp [getArtworks, jsOrDefault, hq]
  · intro l q hq; simp [getArtworks, jsOrDefault, hq]
  · intro l hlen
    have h := main l { page := some 2, limit := some 5, status := none } 2 5
      rfl rfl (by omega) (by omega)
    refine ⟨?_, ?_⟩
    · rw [h.1]; simp [statusFiltered]
    · rw [h.2.2.2.2.2]
      simp only [statusFiltered, hlen]
      norm_num [Int.ceil_eq_iff]

/-- A record of the demonstration store. -/
def demoArt (id : String) (st : StatusVal) : Artwork :=
  { id := id, title := "t", description := "d", category := "c"
    origin := "o", artist := "a", createdDate := "2024-01-01"
    status := st, image := "http://h/uploads/" ++ id ++ ".png"
    createdAt := "ts", updatedAt := "ts" }

/-- The demonstration store: twelve records with distinct ids and
alternating statuses. -/
def demo12 : List Artwork :=
  [demoArt "r0" (.num 0), demoArt "r1" (.num 1), demoArt "r2" (.num 0)
   , demoArt "r3" (.num 1), demoArt "r4" (.num 0), demoArt "r5" (.num 1)
   , demoArt "r6" (.num 0), demoArt "r7" (.num 1), demoArt "r8" (.num 0)
   , demoArt "r9" (.num 1), demoArt "r10" (.num 0), demoArt "r11" (.num 1)]

/-- C3 witness: page 2, limit 5 on the 12-record demonstration store. -/
theorem getArtworks_pagination_witness :
    (getArtworks { page := some 2, limit := some 5, status := none } demo12).data =
      (demo12.drop 5).take 5 ∧
    (getArtworks { page := some 2, limit := some 5, status := none } demo12).pagination.pages
      = 3 :=
  getArtworks_pagination.2.2.2 demo12 rfl

/-! ## C4 -/

/-- C4: when a status query value passes the guard, every record in the
response page satisfies the loose status equality, the reported total
counts exactly the filtered records, and the returned page is a slice of
the filtered collection (the filter is applied before slicing). -/
theorem getArtworks_status_filter (l : List Artwork) (q : Query) (s : String)
    (hs : q.status = some s) (hg : statusGuard s = true) :
    (∀ a ∈ (getArtworks q l).data, statusLooseEq a.status s = true) ∧
    (getArtworks q l).pagination.total =
      (l.filter (fun a => statusLooseEq a.status s)).length ∧
    (getArtworks q l).data =
      jsSlice (l.filter (fun a => statusLooseEq a.status s))
        ((jsOrDefault q.page 1 - 1) * jsOrDefault q.limit 10)
        ((jsOrDefault q.page 1 - 1) * jsOrDefault q.limit 10 + jsOrDefault q.limit 10) := by
  have hfil : statusFiltered q.status l = l.filter (fun a => statusLooseEq a.status s) := by
    simp [statusFiltered, hs, hg]
  refine ⟨?_, ?_, ?_⟩
  · intro a ha
    simp only [getArtworks, hfil] at ha
    have := mem_of_mem_jsSlice ha
    exact (List.mem_filter.mp this).2
  · simp [getArtworks, hfil]
  · simp [getArtworks, hfil]

/-- C4 witness: status=1 over the demonstration store. -/
theorem getArtworks_status_filter_witness :
    (∀ a ∈ (getArtworks { page := none, limit := none, status := some "1" } demo12).data,
      statusLooseEq a.status "1" = true) ∧
    (getArtworks { page := none, limit := none, status := some "1" } demo12).pagination.total =
      (demo12.filter (fun a => statusLooseEq a.status "1")).length ∧
    (getArtworks { page := none, limit := none, status := some "1" } demo12).data =
      jsSlice (demo12.filter (fun a => statusLooseEq a.status "1"))
        ((jsOrDefault none 1 - 1) * jsOrDefault none 10)
        ((jsOrDefault none 1 - 1) * jsOrDefault none 10 + jsOrDefault none 10) :=
  getArtworks_status_filter demo12 { page := none, limit := none, status := some "1" } "1"
    rfl (by decide)

/-! ## Service lemmas for update and delete -/

lemma update_not_mem (id : String) (ad : ArtworkData) (ts : String)
    (l : List Artwork) (h : id ∉ l.map Artwork.id) :
    ArtworkService.update id ad ts l = (none, l) := by
  induction l with
  | nil => rfl
  | cons x xs ih =>
    simp only [List.map_cons, List.mem_cons, not_or] at h
    have hx : (x.id == id) = false := by
      simp only [beq_eq_false_iff_ne, ne_eq]
      exact fun e => h.1 e.symm
    simp [ArtworkService.update, hx, ih h.2]

lemma delete_not_mem (id : String) (l : List Artwork)
    (h : id ∉ l.map Artwork.id) :
    ArtworkService.delete id l = (none, l) := by
  induction l with
  | nil => rfl
  | cons x xs ih =>
    simp only [List.map_cons, List.mem_cons, not_or] at h
    have hx : (x.id == id) = false := by
      simp only [beq_eq_false_iff_ne, ne_eq]
      exact fun e => h.1 e.symm
    simp [ArtworkService.delete, hx, ih h.2]

lemma delete_fst_none_iff (id : String) (l : List Artwork) :
    (ArtworkService.delete id l).1 = none ↔ id ∉ l.map Artwork.id := by
  induction l with
  | nil => simp [ArtworkService.delete]
  | cons x xs ih =>
    by_cases hx : x.id = id
    · simp [ArtworkService.delete, hx]
    · have hx2 : (x.id == id) = false := by
        simp only [beq_eq_false_iff_ne, ne_eq]; exact hx
      simp only [ArtworkService.delete, hx2, Bool.false_eq_true, if_false,
        List.map_cons, List.mem_cons, not_or]
      constructor
      · intro h
        refine ⟨fun e => hx e.symm, ?_⟩
        rw [← ih]
        revert h
        rcases hh : ArtworkService.delete id xs with ⟨r, rest2⟩
        simp
      · intro h
        have := ih.mpr h.2
        revert this
        rcases hh : ArtworkService.delete id xs with ⟨r, rest2⟩
        simp

lemma delete_removes_id (id : String) (l : List Artwork)
    (hnd : (l.map Artwork.id).Nodup) :
    id ∉ ((ArtworkService.delete id l).2.map Artwork.id) := by
  induction l with
  | nil => simp [ArtworkService.delete]
  | cons x xs ih =>
    simp only [List.map_cons, List.nodup_cons] at hnd
    by_cases hx : x.id = id
    · simp only [ArtworkService.delete, hx, beq_self_eq_true, if_pos]
      rw [← hx]
      exact hnd.1
    · have hx2 : (x.id == id) = false := by
        simp only [beq_eq_false_iff_ne, ne_eq]; exact hx
      simp only [ArtworkService.delete, hx2, Bool.false_eq_true, if_false]
      rcases hh : ArtworkService.delete id xs with ⟨r, rest2⟩
      have := ih hnd.2
      rw [hh] at this
      simp only [List.map_cons, List.mem_cons, not_or]
      exact ⟨fun e => hx e.symm, this⟩

lemma delete_sublist (id : String) (l : List Artwork) :
    List.Sublist (ArtworkService.delete id l).2 l := by
  induction l with
  | nil => simp [ArtworkService.delete]
  | cons x xs ih =>
    by_cases hx : x.id = id
    · simp only [ArtworkService.delete, hx, beq_self_eq_true, if_pos]
      exact (List.sublist_cons_self x xs)
    · have hx2 : (x.id == id) = false := by
        simp only [beq_eq_false_iff_ne, ne_eq]; exact hx
      simp only [ArtworkService.delete, hx2, Bool.false_eq_true, if_false]
      rcases hh : ArtworkService.delete id xs with ⟨r, rest2⟩
      rw [hh] at ih
      exact ih.cons₂ x

lemma update_map_id (id : String) (ad : ArtworkData) (ts : String)
    (l : List Artwork) :
    (ArtworkService.update id ad ts l).2.map Artwork.id = l.map Artwork.id := by
  induction l with
  | nil => rfl
  | cons x xs ih =>
    by_cases hx : x.id = id
    · simp [ArtworkService.update, hx, ArtworkService.mergeRecord]
    · have hx2 : (x.id == id) = false := by
        simp only [beq_eq_false_iff_ne, ne_eq]; exact hx
      simp only [ArtworkService.update, hx2, Bool.false_eq_true, if_false]
      rcases hh : ArtworkService.update id ad ts xs with ⟨r, rest2⟩
      rw [hh] at ih
      simp [ih]

lemma update_of_findById (id : String) (ad : ArtworkData) (ts : String)
    (l : List Artwork) (a : Artwork)
    (h : ArtworkService.findById id l = some a) :
    (ArtworkService.update id ad ts l).1 =
      some (ArtworkService.mergeRecord a ad ts) := by
  induction l with
  | nil => simp [ArtworkService.findById] at h
  | cons x xs ih =>
    by_cases hx : x.id = id
    · have : a = x := by
        simp [ArtworkService.findById, List.find?_cons_of_pos, hx] at h
        exact h.symm
      subst this
      simp [ArtworkService.update, hx]
    · have hx2 : (x.id == id) = false := by
        simp only [beq_eq_false_iff_ne, ne_eq]; exact hx
      rw [ArtworkService.findById, List.find?_cons_of_neg _ (by simp [hx2])] at h
      have := ih h
      simp only [ArtworkService.update, hx2, Bool.false_eq_true, if_false]
      rcases hh : ArtworkService.update id ad ts xs with ⟨r, rest2⟩
      rw [hh] at this
      simpa using this

lemma update_fst_status (id : String) (ad : ArtworkData) (ts : String)
    (l : List Artwork) (a : Artwork)
    (h : (ArtworkService.update id ad ts l).1 = some a) :
    a.status = ad.status := by
  induction l with
  | nil => simp [ArtworkService.update] at h
  | cons x xs ih =>
    by_cases hx : x.id = id
    · simp [ArtworkService.update, hx] at h
      rw [← h]
      rfl
    · have hx2 : (x.id == id) = false := by
        simp only [beq_eq_false_iff_ne, ne_eq]; exact hx
      simp only [ArtworkService.update, hx2, Bool.false_eq_true, if_false] at h
      rcases hh : ArtworkService.update id ad ts xs with ⟨r, rest2⟩
      rw [hh] at h
      simp at h
      exact ih (by rw [hh, h])

/-! ## C5 -/

/-- C5: operations on an id absent from the collection: update and delete
return absent and leave the collection unchanged, the DELETE route answers
404 without touching the state; and, over a duplicate-free collection, a
second DELETE of an id that was present (hence removed by the first DELETE)
also answers 404. -/
theorem missing_id_operations (l : List Artwork) (id : String) (ad : ArtworkData)
    (ts : String) (assets : List String) (io1 io2 : Bool)
    (hnd : (l.map Artwork.id).Nodup) :
    (id ∉ l.map Artwork.id →
      ArtworkService.update id ad ts l = (none, l) ∧
      ArtworkService.delete id l = (none, l) ∧
      deleteArtworkRoute io1 id ⟨l, assets⟩ = (.notFound, ⟨l, assets⟩) ∧
      (deleteArtworkRoute io1 id ⟨l, assets⟩).1.code = 404) ∧
    (id ∈ l.map Artwork.id →
      (deleteArtworkRoute io2 id (deleteArtworkRoute io1 id ⟨l, assets⟩).2).1
        = .notFound ∧
      (deleteArtworkRoute io2 id (deleteArtworkRoute io1 id ⟨l, assets⟩).2).1.code
        = 404) := by
  constructor
  · intro h
    have hdel := delete_not_mem id l h
    refine ⟨update_not_mem id ad ts l h, hdel, ?_, ?_⟩ <;>
      simp [deleteArtworkRoute, hdel, DeleteResp.code]
  · intro h
    have h1 : (ArtworkService.delete id l).1 ≠ none := by
      rw [ne_eq, delete_fst_none_iff]
      simpa using h
    rcases hh : ArtworkService.delete id l with ⟨r, l2⟩
    rcases r with _ | d
    · rw [hh] at h1; simp at h1
    · have hgone : id ∉ l2.map Artwork.id := by
        have := delete_removes_id id l hnd
        rw [hh] at this
        exact this
      have hdel2 : ArtworkService.delete id l2 = (none, l2) :=
        delete_not_mem id l2 hgone
      have hroute1 : (deleteArtworkRoute io1 id ⟨l, assets⟩).2.records = l2 := by
        simp [deleteArtworkRoute, hh]
      rcases hst : (deleteArtworkRoute io1 id ⟨l, assets⟩).2 with ⟨recs, ast⟩
      rw [hst] at hroute1
      simp only at hroute1
      subst hroute1
      constructor <;> simp [deleteArtworkRoute, hdel2, DeleteResp.code]

/-- C5 witness: the absent-id part on a one-record store with id "r0" and
query id "zz", and the second-delete part on the same store with id "r0". -/
theorem missing_id_operations_witness :
    (ArtworkService.update "zz" adW "ts" [demoArt "r0" (.num 1)] =
       (none, [demoArt "r0" (.num 1)]) ∧
     ArtworkService.delete "zz" [demoArt "r0" (.num 1)] =
       (none, [demoArt "r0" (.num 1)]) ∧
     deleteArtworkRoute false "zz" ⟨[demoArt "r0" (.num 1)], ["f.png"]⟩ =
       (.notFound, ⟨[demoArt "r0" (.num 1)], ["f.png"]⟩) ∧
     (deleteArtworkRoute false "zz" ⟨[demoArt "r0" (.num 1)], ["f.png"]⟩).1.code = 404) ∧
    ((deleteArtworkRoute false "r0"
        (deleteArtworkRoute false "r0" ⟨[demoArt "r0" (.num 1)], ["f.png"]⟩).2).1
       = .notFound ∧
     (deleteArtworkRoute false "r0"
        (deleteArtworkRoute false "r0" ⟨[demoArt "r0" (.num 1)], ["f.png"]⟩).2).1.code
       = 404) :=
  ⟨(missing_id_operations [demoArt "r0" (.num 1)] "zz" adW "ts" ["f.png"] false false
      (by decide)).1 (by decide),
   (missing_id_operations [demoArt "r0" (.num 1)] "r0" adW "ts" ["f.png"] false false
      (by decide)).2 (by decide)⟩

/-! ## C6 -/

/-- C6: over a duplicate-free collection, create with a fresh generated id
appends exactly one record carrying that id at the end and keeps ids
duplicate-free; update maps the id sequence to itself (so the updated
record keeps its id and its position, and uniqueness and order are
preserved); delete yields a sublist of the original (insertion order of the
survivors preserved) with ids still duplicate-free. -/
theorem collection_invariants (l : List Artwork) (newId cAt uAt ts id : String)
    (ad : ArtworkData) (hnd : (l.map Artwork.id).Nodup) :
    (newId ∉ l.map Artwork.id →
      (ArtworkService.create newId cAt uAt ad l).2 =
        l ++ [(ArtworkService.create newId cAt uAt ad l).1] ∧
      (ArtworkService.create newId cAt uAt ad l).1.id = newId ∧
      (((ArtworkService.create newId cAt uAt ad l).2).map Artwork.id).Nodup) ∧
    ((ArtworkService.update id ad ts l).2.map Artwork.id = l.map Artwork.id) ∧
    (((ArtworkService.update id ad ts l).2.map Artwork.id).Nodup) ∧
    (List.Sublist (ArtworkService.delete id l).2 l) ∧
    (((ArtworkService.delete id l).2.map Artwork.id).Nodup) := by
  have hupd := update_map_id id ad ts l
  refine ⟨?_, hupd, ?_, delete_sublist id l, ?_⟩
  · intro hfresh
    refine ⟨rfl, rfl, ?_⟩
    simp only [ArtworkService.create, List.map_append, List.map_cons, List.map_nil]
    rw [List.nodup_append]
    refine ⟨hnd, List.nodup_singleton _, ?_⟩
    intro a ha hb
    simp only [List.mem_singleton] at hb
    exact hfresh (hb ▸ ha)
  · rw [hupd]; exact hnd
  · exact hnd.sublist ((delete_sublist id l).map Artwork.id)

/-- C6 witness: the invariants evaluated on the one-record store, a fresh
id for create and the stored id for update and delete. -/
theorem collection_invariants_witness :
    (("r1" ∉ ([demoArt "r0" (.num 1)]).map Artwork.id →
      (ArtworkService.create "r1" "c" "u" adW [demoArt "r0" (.num 1)]).2 =
        [demoArt "r0" (.num 1)] ++
          [(ArtworkService.create "r1" "c" "u" adW [demoArt "r0" (.num 1)]).1] ∧
      (ArtworkService.create "r1" "c" "u" adW [demoArt "r0" (.num 1)]).1.id = "r1" ∧
      (((ArtworkService.create "r1" "c" "u" adW [demoArt "r0" (.num 1)]).2).map
          Artwork.id).Nodup) ∧
    ((ArtworkService.update "r0" adW "ts" [demoArt "r0" (.num 1)]).2.map Artwork.id =
      ([demoArt "r0" (.num 1)]).map Artwork.id) ∧
    (((ArtworkService.update "r0" adW "ts" [demoArt "r0" (.num 1)]).2.map
        Artwork.id).Nodup) ∧
    (List.Sublist (ArtworkService.delete "r0" [demoArt "r0" (.num 1)]).2
      [demoArt "r0" (.num 1)]) ∧
    (((ArtworkService.delete "r0" [demoArt "r0" (.num 1)]).2.map Artwork.id).Nodup)) ∧
    "r1" ∉ ([demoArt "r0" (.num 1)]).map Artwork.id :=
  ⟨collection_invariants [demoArt "r0" (.num 1)] "r1" "c" "u" "ts" "r0" adW
      (by decide), by decide⟩

/-! ## C7 -/

/-- C7: the response and the persisted record collection of the DELETE and
PUT routes do not depend on whether unlinking the asset file fails (the
failure is swallowed inside deleteOldImage); in particular, when DELETE
finds its record, the route answers 200 with the deleted record and the
record removal is persisted whatever the unlink outcome. -/
theorem asset_failure_swallowed (io : Bool) (id : String) (st : St)
    (isValidDate : String → Bool) (ts : String) (req : UploadReq) :
    ((deleteArtworkRoute io id st).1 = (deleteArtworkRoute false id st).1) ∧
    ((deleteArtworkRoute io id st).2.records =
      (deleteArtworkRoute false id st).2.records) ∧
    (∀ d l2, ArtworkService.delete id st.records = (some d, l2) →
      (deleteArtworkRoute io id st).1 = .ok d ∧
      (deleteArtworkRoute io id st).1.code = 200 ∧
      (deleteArtworkRoute io id st).2.records = l2) ∧
    ((putArtworkRoute isValidDate ts io id req st).1 =
      (putArtworkRoute isValidDate ts false id req st).1) ∧
    ((putArtworkRoute isValidDate ts io id req st).2.records =
      (putArtworkRoute isValidDate ts false id req st).2.records) := by
  refine ⟨?_, ?_, ?_, ?_, ?_⟩
  · simp only [deleteArtworkRoute]
    rcases hh : ArtworkService.delete id st.records with ⟨_ | d, l2⟩ <;> simp
  · simp only [deleteArtworkRoute]
    rcases hh : ArtworkService.delete id st.records with ⟨_ | d, l2⟩ <;> simp
  · intro d l2 h
    simp [deleteArtworkRoute, h, DeleteResp.code]
  · simp only [putArtworkRoute]
    split
    · rfl
    · rcases hfind : ArtworkService.findById id st.records with _ | a <;>
        rcases hf : req.file with _ | f <;> simp
  · simp only [putArtworkRoute]
    split
    · rfl
    · rcases hfind : ArtworkService.findById id st.records with _ | a <;>
        rcases hf : req.file with _ | f <;> simp

/-- A valid request body shared by the witnesses. -/
def bodyW : Body :=
  { title := some "t", description := some "d", category := some "c"
    origin := some "o", artist := some "a"
    createdDate := some "2024-01-01", status := some (.str "1") }

/-- A valid write request carrying an uploaded file. -/
def reqW : UploadReq :=
  { file := some "new.png", body := bodyW, protocol := "http", host := "h" }

/-- The same valid write request without a file. -/
def reqWnf : UploadReq :=
  { file := none, body := bodyW, protocol := "http", host := "h" }

/-- C7 witness: DELETE of an existing record with a failing unlink still
answers 200 with the deleted record and persists the removal. -/
theorem asset_failure_swallowed_witness :
    (deleteArtworkRoute true "r0" ⟨[demoArt "r0" (.num 1)], ["r0.png"]⟩).1 =
      .ok (demoArt "r0" (.num 1)) ∧
    (deleteArtworkRoute true "r0" ⟨[demoArt "r0" (.num 1)], ["r0.png"]⟩).1.code = 200 ∧
    (deleteArtworkRoute true "r0" ⟨[demoArt "r0" (.num 1)], ["r0.png"]⟩).2.records = [] :=
  (asset_failure_swallowed true "r0" ⟨[demoArt "r0" (.num 1)], ["r0.png"]⟩
      (fun _ => true) "ts" reqW).2.2.1 (demoArt "r0" (.num 1)) [] (by decide)

/-! ## C8 -/

/-- C8: a PUT on an existing record with valid fields: without an uploaded
file the persisted record keeps its previous image url and the asset
directory is untouched; with an uploaded file the response record points at
the new upload url, the directory transition is exactly a best-effort
unlink of the old asset, and — when the unlink succeeds on a duplicate-free
directory containing the old asset under a name different from the new
upload — the old asset file is no longer present afterwards. -/
theorem put_image_handling (isValidDate : String → Bool) (ts : String) (io : Bool)
    (id : String) (req : UploadReq) (st : St) (a : Artwork)
    (hv : validateArtworkData isValidDate req.body = [])
    (hfind : ArtworkService.findById id st.records = some a) :
    (req.file = none →
      (putArtworkRoute isValidDate ts io id req st).1 =
        .ok (some (ArtworkService.mergeRecord a (mkArtworkData req.body a.image) ts)) ∧
      (ArtworkService.mergeRecord a (mkArtworkData req.body a.image) ts).image =
        a.image ∧
      (putArtworkRoute isValidDate ts io id req st).2.assets = st.assets) ∧
    (∀ f, req.file = some f →
      (putArtworkRoute isValidDate ts io id req st).1 =
        .ok (some (ArtworkService.mergeRecord a
          (mkArtworkData req.body (uploadUrl req.protocol req.host f)) ts)) ∧
      (ArtworkService.mergeRecord a
          (mkArtworkData req.body (uploadUrl req.protocol req.host f)) ts).image =
        uploadUrl req.protocol req.host f ∧
      (putArtworkRoute isValidDate ts io id req st).2.assets =
        deleteOldImage io a.image (st.assets ++ [f]) ∧
      (io = false → st.assets.Nodup → jsBasename a.image ∈ st.assets →
        jsBasename a.image ≠ f → a.image ≠ "" →
        jsBasename a.image ∉ (putArtworkRoute isValidDate ts io id req st).2.assets)) := by
  have hlen : ¬ (validateArtworkData isValidDate req.body).length > 0 := by
    rw [hv]; simp
  constructor
  · intro hnone
    have hroute : putArtworkRoute isValidDate ts io id req st =
        (.ok (ArtworkService.update id (mkArtworkData req.body a.image) ts
            st.records).1,
         { records := (ArtworkService.update id (mkArtworkData req.body a.image) ts
             st.records).2,
           assets := st.assets }) := by
      simp only [putArtworkRoute, hnone, multerStore]
      rw [if_neg hlen]
      simp [hfind]
    rw [hroute]
    exact ⟨by simp [update_of_findById id _ ts st.records a hfind], rfl, rfl⟩
  · intro f hf
    have hroute : putArtworkRoute isValidDate ts io id req st =
        (.ok (ArtworkService.update id
            (mkArtworkData req.body (uploadUrl req.protocol req.host f)) ts
            st.records).1,
         { records := (ArtworkService.update id
             (mkArtworkData req.body (uploadUrl req.protocol req.host f)) ts
             st.records).2,
           assets := deleteOldImage io a.image (st.assets ++ [f]) }) := by
      simp only [putArtworkRoute, hf, multerStore]
      rw [if_neg hlen]
      simp [hfind]
    rw [hroute]
    refine ⟨by simp [update_of_findById id _ ts st.records a hfind], rfl, rfl, ?_⟩
    intro hio hnd hmem hne himg
    subst hio
    simp only [deleteOldImage, if_neg himg, fsUnlink]
    have hcont : (st.assets ++ [f]).contains (jsBasename a.image) = true := by
      simp [List.mem_append, hmem]
    rw [if_pos hcont, if_neg (by simp)]
    simp only []
    have hcount : ((st.assets ++ [f]).erase (jsBasename a.image)).count
        (jsBasename a.image) = 0 := by
      rw [List.count_erase_self, List.count_append]
      have h1 : st.assets.count (jsBasename a.image) = 1 :=
        List.count_eq_one_of_mem hnd hmem
      have h2 : List.count (jsBasename a.image) [f] = 0 := by
        simp [List.count_cons, hne]
      omega
    intro hmem2
    have := List.count_pos_iff.mpr hmem2
    omega

/-- C8 witness: both branches on a one-record store whose asset directory
holds the old file: the no-file PUT keeps the image and the directory, the
file PUT points at the new url and the old file is gone. -/
theorem put_image_handling_witness :
    ((putArtworkRoute (fun _ => true) "ts" false "r0" reqWnf
        ⟨[demoArt "r0" (.num 1)], ["r0.png"]⟩).1 =
      .ok (some (ArtworkService.mergeRecord (demoArt "r0" (.num 1))
        (mkArtworkData reqWnf.body (demoArt "r0" (.num 1)).image) "ts")) ∧
     (ArtworkService.mergeRecord (demoArt "r0" (.num 1))
        (mkArtworkData reqWnf.body (demoArt "r0" (.num 1)).image) "ts").image =
       (demoArt "r0" (.num 1)).image ∧
     (putArtworkRoute (fun _ => true) "ts" false "r0" reqWnf
        ⟨[demoArt "r0" (.num 1)], ["r0.png"]⟩).2.assets = ["r0.png"]) ∧
    ((putArtworkRoute (fun _ => true) "ts" false "r0" reqW
        ⟨[demoArt "r0" (.num 1)], ["r0.png"]⟩).1 =
      .ok (some (ArtworkService.mergeRecord (demoArt "r0" (.num 1))
        (mkArtworkData reqW.body (uploadUrl reqW.protocol reqW.host "new.png")) "ts")) ∧
     jsBasename (demoArt "r0" (.num 1)).image ∉
       (putArtworkRoute (fun _ => true) "ts" false "r0" reqW
          ⟨[demoArt "r0" (.num 1)], ["r0.png"]⟩).2.assets) :=
  ⟨(put_image_handling (fun _ => true) "ts" false "r0" reqWnf
      ⟨[demoArt "r0" (.num 1)], ["r0.png"]⟩ (demoArt "r0" (.num 1))
      (by decide) (by decide)).1 rfl,
   ((put_image_handling (fun _ => true) "ts" false "r0" reqW
      ⟨[demoArt "r0" (.num 1)], ["r0.png"]⟩ (demoArt "r0" (.num 1))
      (by decide) (by decide)).2 "new.png" rfl).1,
   ((put_image_handling (fun _ => true) "ts" false "r0" reqW
      ⟨[demoArt "r0" (.num 1)], ["r0.png"]⟩ (demoArt "r0" (.num 1))
      (by decide) (by decide)).2 "new.png" rfl).2.2.2
     rfl (by decide) (by decide) (by decide) (by decide)⟩

/-! ## C10 -/

lemma validate_ok_status (isValidDate : String → Bool) (b : Body)
    (h : validateArtworkData isValidDate b = []) :
    ∃ v, b.status = some v ∧ v ∈ validStatusVals := by
  simp only [validateArtworkData, List.append_eq_nil] at h
  have h7 := h.2
  rcases hb : b.status with _ | v
  · rw [hb] at h7; simp at h7
  · rw [hb] at h7
    refine ⟨v, rfl, ?_⟩
    by_cases hm : v ∈ validStatusVals
    · exact hm
    · exfalso
      rw [if_pos (by simp [hm])] at h7
      simp at h7

lemma jsParseInt_valid (v : StatusVal) (hv : v ∈ validStatusVals) :
    jsParseInt v = 0 ∨ jsParseInt v = 1 := by
  simp only [validStatusVals, List.mem_cons, List.not_mem_nil, or_false] at hv
  rcases hv with h | h | h | h <;> subst h <;> simp [jsParseInt, parseIntStr, parseDigitsAux]

/-- C10: every record written through a successful POST /artworks or
PUT /artworks/:id carries status equal to the integer parseInt(status) of
the supplied value — the number 0 or 1 — never a string, even when the
client sent "0" or "1". -/
theorem written_status_is_int (isValidDate : String → Bool)
    (nid cAt uAt ts : String) (io : Bool) (id : String) (req : UploadReq) (st : St)
    (hv : validateArtworkData isValidDate req.body = []) :
    (∀ u, (mkArtworkData req.body u).status =
        .num (jsParseInt (req.body.status.getD (.num 0))) ∧
      (jsParseInt (req.body.status.getD (.num 0)) = 0 ∨
       jsParseInt (req.body.status.getD (.num 0)) = 1)) ∧
    (∀ a st2, postArtworks isValidDate nid cAt uAt req st = (.created a, st2) →
      a.status = .num (jsParseInt (req.body.status.getD (.num 0))) ∧
      (∀ s, a.status ≠ .str s)) ∧
    (∀ u st2 a, putArtworkRoute isValidDate ts io id req st = (.ok u, st2) →
      u = some a →
      a.status = .num (jsParseInt (req.body.status.getD (.num 0))) ∧
      (∀ s, a.status ≠ .str s)) := by
  obtain ⟨v, hbs, hvm⟩ := validate_ok_status isValidDate req.body hv
  have hlen : ¬ (validateArtworkData isValidDate req.body).length > 0 := by
    rw [hv]; simp
  refine ⟨fun u => ⟨rfl, by rw [hbs]; exact jsParseInt_valid v hvm⟩, ?_, ?_⟩
  · intro a st2 hpost
    simp only [postArtworks] at hpost
    rw [if_neg hlen] at hpost
    rcases hf : req.file with _ | f
    · rw [hf] at hpost; simp at hpost
    · rw [hf] at hpost
      simp only [Prod.mk.injEq, PostResp.created.injEq] at hpost
      have ha : a = (ArtworkService.create nid cAt uAt
          (mkArtworkData req.body (uploadUrl req.protocol req.host f))
          st.records).1 := hpost.1.symm
      subst ha
      exact ⟨rfl, by intro s; simp [ArtworkService.create, mkArtworkData]⟩
  · intro u st2 a hput hu
    subst hu
    simp only [putArtworkRoute] at hput
    rw [if_neg hlen] at hput
    rcases hfind : ArtworkService.findById id st.records with _ | old
    · rw [hfind] at hput
      simp at hput
    · rw [hfind] at hput
      rcases hf : req.file with _ | f <;> rw [hf] at hput <;>
        simp only [Prod.mk.injEq, PutResp.ok.injEq] at hput
      · have hst := update_fst_status id
          (mkArtworkData req.body old.image) ts st.records a (by rw [hput.1])
        refine ⟨by rw [hst]; rfl, ?_⟩
        intro s
        rw [hst]
        simp [mkArtworkData]
      · have hst := update_fst_status id
          (mkArtworkData req.body (uploadUrl req.protocol req.host f)) ts
          st.records a (by rw [hput.1])
        refine ⟨by rw [hst]; rfl, ?_⟩
        intro s
        rw [hst]
        simp [mkArtworkData]

/-- C10 witness: a successful concrete POST whose body carries status as
the string "1" stores the number 1. -/
theorem written_status_is_int_witness :
    (∀ a st2, postArtworks (fun _ => true) "nid" "c" "u" reqW ⟨[], []⟩ =
        (.created a, st2) →
      a.status = .num (jsParseInt (reqW.body.status.getD (.num 0))) ∧
      (∀ s, a.status ≠ .str s)) ∧
    (mkArtworkData reqW.body "u").status =
      .num (jsParseInt (reqW.body.status.getD (.num 0))) :=
  ⟨(written_status_is_int (fun _ => true) "nid" "c" "u" "ts" false "zz" reqW ⟨[], []⟩
      (by decide)).2.1,
   ((written_status_is_int (fun _ => true) "nid" "c" "u" "ts" false "zz" reqW ⟨[], []⟩
      (by decide)).1 "u").1⟩
